import Mathlib

/-!
A verification development for the deferred-job subsystem of the Safety-chan
chat bot: the events cog (schedule / signup / cancel over APScheduler jobs
guarded by named redis locks), the poll cog (timed polls resolved by reaction
tallies), the birthday cog (daily scan over a cached birthday sheet), and the
category-setting command of the stats cog.

The Python sources are embedded shallowly: job argument tuples become lists of
dynamic `PyVal` values (so that the dynamic-typing behaviour of tuple indexing
and `in` tests is preserved exactly), fallible code returns `Except PyError`,
and external collaborators (channel resolution, the schedule-time parser) are
taken as parameters.
-/

namespace SafetyChan

/-- Python-style dynamic values as they appear in APScheduler job argument
tuples: channel/author ids are ints, event names and time strings are strings,
and the member list is a list of mention strings. -/
inductive PyVal where
  | vInt (n : Int)
  | vStr (s : String)
  | vList (l : List String)
deriving DecidableEq, Repr

/-- Python runtime errors raised by the embedded code. -/
inductive PyError where
  | typeError (msg : String)
  | valueError (msg : String)
  | indexError (msg : String)
deriving DecidableEq, Repr

/-- Python `str(v)` as used when a job-argument value is interpolated into a
message. -/
def PyVal.pyStr : PyVal → String
  | .vInt n => toString n
  | .vStr s => s
  | .vList l => toString l

/-- Python subscripting `v[i]` on a job-argument value. Subscripting an `int`
raises `TypeError`. -/
def PyVal.subscript : PyVal → Nat → Except PyError PyVal
  | .vInt _, _ => .error (.typeError "int object is not subscriptable")
  | .vStr s, i =>
    match s.data.get? i with
    | some c => .ok (.vStr (String.mk [c]))
    | none => .error (.indexError "string index out of range")
  | .vList l, i =>
    match l.get? i with
    | some s => .ok (.vStr s)
    | none => .error (.indexError "list index out of range")

/-- Boolean substring test on character lists (Python `needle in haystack` for
strings). -/
def hasSubstr (needle : List Char) : List Char → Bool
  | [] => needle.isEmpty
  | c :: rest => needle.isPrefixOf (c :: rest) || hasSubstr needle rest

/-- Python membership `x in v` on a job-argument value. `in` on an `int`
raises `TypeError`. -/
def PyVal.pyIn (x : String) : PyVal → Except PyError Bool
  | .vInt _ => .error (.typeError "argument of type int is not iterable")
  | .vStr s => .ok (hasSubstr x.data s.data)
  | .vList l => .ok (l.contains x)

/-- Python `+` on job-argument values (list concatenation on the signup
path). -/
def PyVal.pyAdd : PyVal → PyVal → Except PyError PyVal
  | .vInt a, .vInt b => .ok (.vInt (a + b))
  | .vStr a, .vStr b => .ok (.vStr (a ++ b))
  | .vList a, .vList b => .ok (.vList (a ++ b))
  | _, _ => .error (.typeError "unsupported operand types")

/-- Python `" ".join(v)`. -/
def pyJoinSpace : PyVal → Except PyError String
  | .vList l => .ok (String.intercalate " " l)
  | .vStr s => .ok (String.intercalate " " (s.data.map (fun c => String.mk [c])))
  | .vInt _ => .error (.typeError "can only join an iterable")

/-- Python tuple indexing `args[i]` (raises `IndexError` past the end). -/
def pyIndex (args : List PyVal) (i : Nat) : Except PyError PyVal :=
  match args.get? i with
  | some v => .ok v
  | none => .error (.indexError "tuple index out of range")

/-- A scheduled job: its opaque id and the stored argument tuple.
Modelled from the spec: the JobStore keeps jobs keyed by an opaque id assigned
at creation (`bot/util/scheduler.py`, which wires up the third-party
APScheduler instance, is not among the sources; only the contract of section
4.2 of the spec is used). Fire times play no role in the claims settled here
and are omitted. -/
structure Job where
  id : String
  args : List PyVal
deriving DecidableEq, Repr

/-- Modelled from the spec: `get(id) -> Job | NotFound`, a point lookup
(`scheduler.get_job`). -/
def getJob (store : List Job) (i : String) : Option Job :=
  store.find? (fun j => j.id == i)

/-- Modelled from the spec: `remove(id)` deletes the job if present
(`scheduler.remove_job`). -/
def removeJob (store : List Job) (i : String) : List Job :=
  store.filter (fun j => j.id != i)

/-- Modelled from the spec: the in-place argument mutation `job.modify(args=…)`
re-writes the stored argument tuple of the job with the given id. -/
def modifyJobArgs (store : List Job) (i : String) (newArgs : List PyVal) : List Job :=
  store.map (fun j => if j.id == i then { j with args := newArgs } else j)

/-- The slice of a chat channel the events cog looks at: the mention strings of
the members who can see it. -/
structure Channel where
  members : List String

/-- An external send performed by a command. -/
inductive Notice where
  | toChannel (text : String)
  | toAuthor (text : String)
  | toCtx (text : String)
deriving DecidableEq, Repr

/-- Result of one command invocation: the job store afterwards, the external
messages sent (in order), and the uncaught Python error, if any. A command
that raises sends nothing itself (the cog error handler reports it). -/
structure CmdOutcome where
  store : List Job
  sent : List Notice
  err : Option PyError
deriving Repr

/-- The `with redlocks.create_lock(key):` pattern: the named lock is held for
the critical section and released when the block exits, whether the body
returned normally or raised (Python context-manager semantics).
Modelled from the spec: the LockRegistry hands out scoped locks whose disposal
releases on every exit path (`bot/util/scheduler.py` is not among the
sources). -/
def withRedlock (locks : List String) (key : String)
    (body : Unit → Except PyError α) : List String × Except PyError α :=
  let acquired := key :: locks
  let r := body ()
  (acquired.erase key, r)

/-- The argument tuple stored by `EventsManager.schedule` (events.py lines
84-86): `[ctx.channel.id, event, time, ctx.message.author.id,
[ctx.message.author.mention]]`. -/
def scheduleArgs (channelId : Int) (event timeStr : String) (authorId : Int)
    (authorMention : String) : List PyVal :=
  [.vInt channelId, .vStr event, .vStr timeStr, .vInt authorId,
    .vList [authorMention]]

/-- The `EventsManager.schedule` (events.py lines 53-93): parse the time string
with `get_local_date` (from `bot/util/util.py`, not among the sources, so it
is a parameter returning an absolute timestamp), reject an unparseable or past
time before doing anything else, then add the job and send the confirmation
naming the new job id. -/
def schedule (get_local_date : String → Option Int) (now : Int)
    (channelId : Int) (authorId : Int) (authorMention : String)
    (newId : String) (store : List Job) (event timeStr : String) : CmdOutcome :=
  match get_local_date timeStr with
  | none =>
    { store := store, sent := [],
      err := some (.valueError ("Could not parse " ++ timeStr)) }
  | some d =>
    if d < now then
      { store := store, sent := [],
        err := some (.valueError (toString d ++ " is in the past")) }
    else
      { store := store ++
          [{ id := newId,
             args := scheduleArgs channelId event timeStr authorId authorMention }],
        sent := [.toCtx ("**" ++ event ++ "** by " ++ authorMention ++ " for "
          ++ timeStr ++ "\nSign up with the id **" ++ newId ++ "**")],
        err := none }

/-- The critical section of `EventsManager.signup` (events.py lines 113-133),
run while holding the lock named by the job id: look the job up, resolve the
channel from `job.args[0]` and require the requester to be one of its members,
read `author = job.args[3][0]`, `event = job.args[1]`, `time = job.args[2]`,
and when `new_member not in job.args[3]` write back
`job.args[0:3] + (members,)` where `members = job.args[3] + [new_member]`.
Returns the store afterwards and the notice sent after the lock is
released. -/
def signupBody (getChannel : PyVal → Option Channel) (store : List Job)
    (eventId requesterMention : String) : Except PyError (List Job × Notice) :=
  match getJob store eventId with
  | none => .error (.valueError ("The job " ++ eventId ++ " does not exist"))
  | some job =>
    match pyIndex job.args 0 with
    | .error e => .error e
    | .ok a0 =>
      match getChannel a0 with
      | none => .error (.valueError ("The job " ++ eventId ++ " does not exist"))
      | some channel =>
        if channel.members.contains requesterMention then
          match pyIndex job.args 3 with
          | .error e => .error e
          | .ok a3 =>
            match a3.subscript 0 with
            | .error e => .error e
            | .ok author =>
              match pyIndex job.args 1 with
              | .error e => .error e
              | .ok a1 =>
                match pyIndex job.args 2 with
                | .error e => .error e
                | .ok a2 =>
                  match a3.pyIn requesterMention with
                  | .error e => .error e
                  | .ok already =>
                    if already then
                      .ok (store, .toAuthor ("You have already signed up for "
                        ++ a1.pyStr ++ " at " ++ a2.pyStr ++ " by " ++ author.pyStr))
                    else
                      match a3.pyAdd (.vList [requesterMention]) with
                      | .error e => .error e
                      | .ok members =>
                        .ok (modifyJobArgs store eventId (job.args.take 3 ++ [members]),
                          .toChannel (requesterMention ++ " has signed up for "
                            ++ a1.pyStr ++ " at " ++ a2.pyStr ++ " by " ++ author.pyStr))
        else
          .error (.valueError ("The job " ++ eventId ++ " does not exist"))

/-- The `EventsManager.signup` (events.py lines 95-138): the locked critical
section followed by the post-lock notification. Returns the lock set after the
call alongside the command outcome. -/
def signup (getChannel : PyVal → Option Channel) (locks : List String)
    (store : List Job) (eventId requesterMention : String) :
    List String × CmdOutcome :=
  let p := withRedlock locks eventId
    (fun _ => signupBody getChannel store eventId requesterMention)
  (p.1,
    match p.2 with
    | .error e => { store := store, sent := [], err := some e }
    | .ok (store2, notice) => { store := store2, sent := [notice], err := none })

/-- What the critical section of `cancel` decided. -/
inductive CancelResult where
  | removed (args : List PyVal)
  | failed (msg : String)
deriving Repr

/-- The critical section of `EventsManager.cancel` (events.py lines 156-170):
fetch the job; when present compare `args[3][0]` with the requesting author
mention and remove the job on a match, otherwise record the not-found error
message. -/
def cancelBody (store : List Job) (eventId requesterMention : String) :
    Except PyError (List Job × CancelResult) :=
  match getJob store eventId with
  | none =>
    .ok (store, .failed ("Could not find a job " ++ eventId
      ++ ". Make sure you provided the correct id and are the creator of this job"))
  | some job =>
    match pyIndex job.args 3 with
    | .error e => .error e
    | .ok a3 =>
      match a3.subscript 0 with
      | .error e => .error e
      | .ok creator =>
        if creator == .vStr requesterMention then
          .ok (removeJob store eventId, .removed job.args)
        else
          .ok (store, .failed ("Could not find a job " ++ eventId
            ++ ". Make sure you provided the correct id and are the creator of this job"))

/-- The `EventsManager.cancel` (events.py lines 140-185): the locked critical
section, then either the error reply or the cancellation announcement naming
`" ".join(args[3])`. -/
def cancel (getChannel : PyVal → Option Channel) (locks : List String)
    (store : List Job) (eventId requesterMention : String) :
    List String × CmdOutcome :=
  let p := withRedlock locks eventId
    (fun _ => cancelBody store eventId requesterMention)
  (p.1,
    match p.2 with
    | .error e => { store := store, sent := [], err := some e }
    | .ok (store2, .failed msg) =>
      { store := store2, sent := [.toCtx msg], err := none }
    | .ok (store2, .removed args) =>
      match pyIndex args 0 with
      | .error e => { store := store2, sent := [], err := some e }
      | .ok a0 =>
        match getChannel a0 with
        | none =>
          { store := store2,
            sent := [.toCtx ("The channel " ++ a0.pyStr ++ " no longer exists")],
            err := none }
        | some _ =>
          match pyIndex args 1 with
          | .error e => { store := store2, sent := [], err := some e }
          | .ok a1 =>
            match pyIndex args 2 with
            | .error e => { store := store2, sent := [], err := some e }
            | .ok a2 =>
              match pyIndex args 3 with
              | .error e => { store := store2, sent := [], err := some e }
              | .ok a3 =>
                match pyJoinSpace a3 with
                | .error e => { store := store2, sent := [], err := some e }
                | .ok joined =>
                  { store := store2,
                    sent := [.toChannel (requesterMention ++ " cancelled \"**"
                      ++ a1.pyStr ++ "**\" for " ++ a2.pyStr ++ "\n" ++ joined)],
                    err := none })

/-- One signup invocation: the channel view at call time, the targeted job id
and the requesting member mention. -/
structure SignupOp where
  getChannel : PyVal → Option Channel
  eventId : String
  requester : String

/-- Fold a sequence of signup invocations over the job store. -/
def runSignups (ops : List SignupOp) (store : List Job) : List Job :=
  ops.foldl (fun s op => ((signup op.getChannel [] s op.eventId op.requester).2).store) store

/-- The stored participant list of an event job: entry 4 of the argument tuple
(the `members` parameter of `register_event`). -/
def participantsOf (j : Job) : List String :=
  match j.args.get? 4 with
  | some (.vList l) => l
  | _ => []

/-- The first (emoji, category) conflict found by the scan in
`StatsManager.setCategory` (stats.py lines 356-362): an emoji already
occurring (Python `in` on `str`, i.e. as a substring) in the stored emoji
string of a category other than the one being set; the outer loop walks the
stored categories, the inner loop the provided emojis. -/
def findConflict (category : String) (emojis : List String) :
    List (String × String) → Option (String × String)
  | [] => none
  | (cat, lst) :: rest =>
    if cat == category then findConflict category emojis rest
    else
      match emojis.find? (fun e => hasSubstr e.data lst.data) with
      | some e => some (e, cat)
      | none => findConflict category emojis rest

/-- The `redis.hmset(key, {category: " ".join(emojis)})` on the guild hash:
replace the binding for the category or append it. -/
def hmset (m : List (String × String)) (k v : String) : List (String × String) :=
  if m.any (fun p => p.1 == k) then m.map (fun p => if p.1 == k then (k, v) else p)
  else m ++ [(k, v)]

/-- The critical section of `StatsManager.setCategory` (stats.py lines
353-364): raise `ValueError` when any provided emoji is already used in a
different category, else write the category as the space-joined emoji
string. -/
def setCategoryBody (category : String) (emojis : List String)
    (existing : List (String × String)) : Except PyError (List (String × String)) :=
  match findConflict category emojis existing with
  | some (emoji, cat) =>
    .error (.valueError ("Emoji " ++ emoji ++ " is already used in category " ++ cat))
  | none => .ok (hmset existing category (String.intercalate " " emojis))

/-- The `StatsManager.setCategory` from lock acquisition on: the critical section
runs under the lock named `{guildId}:categories:lock`; replies happen after
release. Returns the lock set after the call and the section result. -/
def setCategory (locks : List String) (guildKey : String) (category : String)
    (emojis : List String) (existing : List (String × String)) :
    List String × Except PyError (List (String × String)) :=
  withRedlock locks (guildKey ++ ":lock")
    (fun _ => setCategoryBody category emojis existing)

/-- The reaction emojis used for poll options, in order (poll.py lines
22-34): the keycap digits one to ten, then regional indicator letters A-J. -/
def emojis_order : List String :=
  ["1️⃣", "2️⃣", "3️⃣", "4️⃣", "5️⃣", "6️⃣", "7️⃣", "8️⃣", "9️⃣", "🔟",
   "🇦", "🇧", "🇨", "🇩", "🇪", "🇫", "🇬", "🇭", "🇮", "🇯"]

def SECONDS_IN_MINUTE : Int := 60

def SECONDS_IN_HOUR : Int := 60 * SECONDS_IN_MINUTE

def SECONDS_IN_DAY : Int := 24 * SECONDS_IN_HOUR

/-- poll.py lines 40-41. -/
def vote_str (count : Int) : String :=
  if count == 1 then "vote" else "votes"

/-- Numeric value of a digit run. -/
def digitsVal (ds : List Char) : Nat :=
  ds.foldl (fun a c => a * 10 + (c.toNat - 48)) 0

/-- Python `int(s)` on a plain decimal string: an optional sign followed by
digits (whitespace and underscore separators, which no command input
exercises here, are not modelled). -/
def pyParseInt? (s : String) : Option Int :=
  match s.data with
  | [] => none
  | '-' :: ds =>
    if ds ≠ [] ∧ ds.all Char.isDigit then some (-(digitsVal ds : Int)) else none
  | '+' :: ds =>
    if ds ≠ [] ∧ ds.all Char.isDigit then some (digitsVal ds : Int) else none
  | ds =>
    if ds.all Char.isDigit then some (digitsVal ds : Int) else none

/-- One optional group `(\d+X)?` of the duration pattern: consume a maximal
digit run followed by the marker letter, or consume nothing. Because the four
marker letters are distinct and a digit run cannot contain a marker, this
deterministic reading agrees with the regex
`(?P<days>\d+d)?(?P<hours>\d+h)?(?P<minutes>\d+m)?(?P<seconds>\d+s)?$`. -/
def munchGroup (marker : Char) (cs : List Char) : Option Nat × List Char :=
  let digits := cs.takeWhile Char.isDigit
  match digits, cs.drop digits.length with
  | _ :: _, c :: rest => if c = marker then (some (digitsVal digits), rest) else (none, cs)
  | _, _ => (none, cs)

/-- The `re.match` of poll.py line 43s pattern against the whole input: the four
optional groups in order, anchored at the end by `$`. -/
def matchDuration (s : String) :
    Option (Option Nat × Option Nat × Option Nat × Option Nat) :=
  let (d, r1) := munchGroup 'd' s.data
  let (h, r2) := munchGroup 'h' r1
  let (m, r3) := munchGroup 'm' r2
  let (sec, r4) := munchGroup 's' r3
  if r4 = [] then some (d, h, m, sec) else none

/-- The total seconds computed by `parse_time` (poll.py lines 62-85) before
the minimum-duration check: a bare int is minutes, otherwise the regex groups
are summed (seconds, then minutes, hours, days). `none` is the
`{time} is not a valid time string` `ValueError`. -/
def durationSeconds? (time : String) : Option Int :=
  match pyParseInt? time with
  | some n => some (SECONDS_IN_MINUTE * n)
  | none =>
    match matchDuration time with
    | none => none
    | some (d, h, m, sec) =>
      some ((sec.getD 0 : Int) + SECONDS_IN_MINUTE * (m.getD 0 : Int)
        + SECONDS_IN_HOUR * (h.getD 0 : Int) + SECONDS_IN_DAY * (d.getD 0 : Int))

/-- The `parse_time` (poll.py lines 47-106): total seconds, the 30-second minimum
check, then the breakdown into the `[seconds, minutes, hours, days]` tuple
(returned here in that index order). -/
def parse_time (time : String) : Except PyError (Int × Int × Int × Int) :=
  match durationSeconds? time with
  | none => .error (.valueError (time ++ " is not a valid time string"))
  | some secs =>
    if secs < 30 then
      .error (.valueError "You must wait at least 30 seconds for a poll")
    else
      let t3 := if secs ≥ SECONDS_IN_DAY then secs / SECONDS_IN_DAY else 0
      let r3 := if secs ≥ SECONDS_IN_DAY then secs % SECONDS_IN_DAY else secs
      let t2 := if r3 ≥ SECONDS_IN_HOUR then r3 / SECONDS_IN_HOUR else 0
      let r2 := if r3 ≥ SECONDS_IN_HOUR then r3 % SECONDS_IN_HOUR else r3
      let t1 := if r2 ≥ SECONDS_IN_MINUTE then r2 / SECONDS_IN_MINUTE else 0
      let r1 := if r2 ≥ SECONDS_IN_MINUTE then r2 % SECONDS_IN_MINUTE else r2
      .ok (r1, t1, t2, t3)

/-- The `simple_plural` (poll.py lines 108-122). -/
def simple_plural (count : Int) (unit : String) : String :=
  if count > 1 ∨ count == 0 then toString count ++ " " ++ unit ++ "s"
  else toString count ++ " " ++ unit

/-- Zero-pad to two characters (the `{x:0>2}` format). -/
def pad2 (n : Int) : String :=
  let s := toString n
  if s.length < 2 then "0" ++ s else s

/-- The `time_string` (poll.py lines 124-149) over the
`(seconds, minutes, hours, days)` tuple. -/
def time_string (duration : Int × Int × Int × Int) : String :=
  let daysPart :=
    if duration.2.2.2 > 0 then
      simple_plural duration.2.2.2 "day" ++
        (if duration.2.2.1 > 0 ∨ duration.2.1 > 0 ∨ duration.1 > 0 then ", " else "")
    else ""
  daysPart ++
    (if duration.2.2.1 > 0 ∨ duration.1 > 0 then
      toString duration.2.2.1 ++ ":" ++ pad2 duration.2.1 ++ ":" ++ pad2 duration.1
    else simple_plural duration.2.1 "minute")

/-- The poll text posted by `PollManager.poll` (poll.py lines 293-296). -/
def pollText (authorMention topic : String) (t : Int × Int × Int × Int)
    (options : List String) : String :=
  "poll by " ++ authorMention ++ " (in " ++ time_string t ++ "): **" ++ topic
    ++ "**\n\n>>> "
    ++ String.join (options.enum.map
        (fun p => toString (p.1 + 1) ++ ". " ++ p.2 ++ "\n"))

/-- Result of one `poll` command invocation: the poll messages posted, the
priming reactions added by the bot (in order), the `poll_result` jobs
scheduled, and the uncaught error, if any. -/
structure PollOutcome where
  sent : List String
  reactions : List String
  jobs : List (List PyVal)
  err : Option PyError
deriving Repr

/-- The `PollManager.poll` (poll.py lines 253-309): validate the option count and
the duration string (raising before any external call), then post the poll
text, add one priming reaction per option, and schedule `poll_result`. -/
def pollCmd (authorMention : String) (authorId channelId msgId : Int)
    (topic timing : String) (options : List String) : PollOutcome :=
  if options.length < 1 then
    { sent := [], reactions := [], jobs := [],
      err := some (.valueError "Please provide at least one option") }
  else
    match parse_time timing with
    | .error e => { sent := [], reactions := [], jobs := [], err := some e }
    | .ok t =>
      if options.length > emojis_order.length then
        { sent := [], reactions := [], jobs := [],
          err := some (.valueError "I can only deal with up to 20 options") }
      else
        { sent := [pollText authorMention topic t options],
          reactions := emojis_order.take options.length,
          jobs := [[.vInt authorId, .vInt channelId, .vInt msgId, .vStr topic]],
          err := none }

/-- The loop body accumulators of the tally phase of `poll_result` (poll.py
lines 199-208): `emojis_order.index(reaction.emoji)` either finds an index
(routed to `results` when below the option count, to `others` otherwise) or
raises `ValueError` (routed to `others`). -/
def buildTalliesGo (options : List String)
    (acc1 acc2 : List (Int × String)) :
    List (String × Int) → List (Int × String) × List (Int × String)
  | [] => (acc1, acc2)
  | r :: rs =>
    match emojis_order.findIdx? (fun e => e == r.1) with
    | some i =>
      match options.get? i with
      | some o => buildTalliesGo options (acc1 ++ [(r.2 - 1, o)]) acc2 rs
      | none => buildTalliesGo options acc1 (acc2 ++ [(r.2, r.1)]) rs
    | none => buildTalliesGo options acc1 (acc2 ++ [(r.2, r.1)]) rs

/-- The tally phase of `poll_result` (poll.py lines 196-208): each reaction
goes to `results` as `(count - 1, option)` when its emoji is a registered
option emoji, and to `others` as `(count, reaction)` otherwise (emoji beyond
the option count, or not in `emojis_order` at all). -/
def buildTallies (options : List String) (reactions : List (String × Int)) :
    List (Int × String) × List (Int × String) :=
  buildTalliesGo options [] [] reactions

/-- The `results` entry a reaction contributes: its count less one, paired
with the registered option it points at — or nothing when off-list. -/
def resEntry (options : List String) (r : String × Int) : Option (Int × String) :=
  match emojis_order.findIdx? (fun e => e == r.1) with
  | some i => (options.get? i).map (fun o => (r.2 - 1, o))
  | none => none

/-- The `others` entry a reaction contributes: its raw count and emoji — or
nothing when it is a registered option reaction. -/
def othEntry (options : List String) (r : String × Int) : Option (Int × String) :=
  match emojis_order.findIdx? (fun e => e == r.1) with
  | some i =>
    match options.get? i with
    | some _ => none
    | none => some (r.2, r.1)
  | none => some (r.2, r.1)

/-- Python string `<=`: code-point lexicographic comparison of the character
sequences (the order `str` comparison and hence `list.sort` use). -/
def charsLe : List Char → List Char → Bool
  | [], _ => true
  | _ :: _, [] => false
  | a :: as, b :: bs =>
    if a.toNat < b.toNat then true
    else if b.toNat < a.toNat then false
    else charsLe as bs

/-- Python `a <= b` on strings. -/
def strLe (a b : String) : Prop :=
  charsLe a.data b.data = true

instance strLeDecidable : DecidableRel strLe := fun a b => by
  unfold strLe
  infer_instance

instance strLeTotal : IsTotal String strLe := by
  constructor
  intro a b
  show charsLe a.data b.data = true ∨ charsLe b.data a.data = true
  generalize a.data = xs
  generalize b.data = ys
  induction xs generalizing ys with
  | nil => left; rfl
  | cons x xs ih =>
    cases ys with
    | nil => right; rfl
    | cons y ys =>
      by_cases h1 : x.toNat < y.toNat
      · left
        simp [charsLe, h1]
      · by_cases h2 : y.toNat < x.toNat
        · right
          simp [charsLe, h1, h2]
        · rcases ih ys with h | h
          · left
            simp [charsLe, h1, h2, h]
          · right
            simp [charsLe, h1, h2, h]

instance strLeTrans : IsTrans String strLe := by
  constructor
  have key : ∀ (xs ys zs : List Char), charsLe xs ys = true → charsLe ys zs = true →
      charsLe xs zs = true := by
    intro xs
    induction xs with
    | nil => intro ys zs h1 h2; rfl
    | cons x xs ih =>
      intro ys zs hxy hyz
      cases ys with
      | nil => simp [charsLe] at hxy
      | cons y ys =>
        cases zs with
        | nil => simp [charsLe] at hyz
        | cons z zs =>
          by_cases h1 : x.toNat < y.toNat
          · by_cases h2 : y.toNat < z.toNat
            · simp [charsLe, show x.toNat < z.toNat by omega]
            · by_cases h4 : z.toNat < y.toNat
              · simp [charsLe, h2, h4] at hyz
              · simp [charsLe, show x.toNat < z.toNat by omega]
          · by_cases h5 : y.toNat < x.toNat
            · simp [charsLe, h1, h5] at hxy
            · by_cases h2 : y.toNat < z.toNat
              · simp [charsLe, show x.toNat < z.toNat by omega]
              · by_cases h4 : z.toNat < y.toNat
                · simp [charsLe, h2, h4] at hyz
                · have hx : charsLe xs ys = true := by
                    simpa [charsLe, h1, h5] using hxy
                  have hy : charsLe ys zs = true := by
                    simpa [charsLe, h2, h4] using hyz
                  simp [charsLe, show ¬ x.toNat < z.toNat by omega,
                    show ¬ z.toNat < x.toNat by omega]
                  exact ih ys zs hx hy
  intro a b c hab hbc
  exact key a.data b.data c.data hab hbc

/-- Python `list.sort(reverse=True)` comparison on `(count, name)` tally
pairs: `a` precedes `b` when `a` is tuple-wise greater or equal (count first,
then name). The relation is an antisymmetric total order on the pairs, so any
correct sort — Pythons stable sort included — produces the same output. -/
def descRel (a b : Int × String) : Prop :=
  b.1 < a.1 ∨ (a.1 = b.1 ∧ strLe b.2 a.2)

instance descRelDecidable : DecidableRel descRel := fun a b => by
  unfold descRel
  infer_instance

instance descRelTrans : IsTrans (Int × String) descRel := by
  constructor
  intro a b c hab hbc
  rcases hab with h1 | ⟨h1, h2⟩ <;> rcases hbc with h3 | ⟨h3, h4⟩
  · exact Or.inl (by omega)
  · exact Or.inl (by omega)
  · exact Or.inl (by omega)
  · exact Or.inr ⟨by omega, strLeTrans.trans c.2 b.2 a.2 h4 h2⟩

instance descRelTotal : IsTotal (Int × String) descRel := by
  constructor
  intro a b
  rcases lt_trichotomy a.1 b.1 with h | h | h
  · exact Or.inr (Or.inl h)
  · rcases strLeTotal.total a.2 b.2 with h2 | h2
    · exact Or.inr (Or.inr ⟨h.symm, h2⟩)
    · exact Or.inl (Or.inr ⟨h, h2⟩)
  · exact Or.inl (Or.inl h)

/-- The `results` after `results.sort(reverse=True)` (poll.py line 211). -/
def sortedResults (options : List String) (reactions : List (String × Int)) :
    List (Int × String) :=
  ((buildTallies options reactions).1).insertionSort descRel

/-- The `others` after `others.sort(reverse=True)` (poll.py line 210). -/
def sortedOthers (options : List String) (reactions : List (String × Int)) :
    List (Int × String) :=
  ((buildTallies options reactions).2).insertionSort descRel

/-- The `wins` (poll.py lines 213-222): the top entry of the sorted results plus
every following entry with the same count, then `wins.sort()` (ascending
lexicographic order on the option names). -/
def winners (options : List String) (reactions : List (String × Int)) :
    List String :=
  match sortedResults options reactions with
  | [] => []
  | top :: rest =>
    (top.2 :: (rest.takeWhile (fun p => p.1 == top.1)).map (fun p => p.2)).insertionSort
      strLe

/-- The `results of {lines[0]}:` (poll.py line 225). -/
def headerText (topicLine : String) : String :=
  "results of " ++ topicLine ++ ":\n"

/-- The dedented off-list advisory block (poll.py lines 227-232), naming the
top non-option reaction and its raw count. -/
def advisoryText (o : Int × String) : String :=
  "\"\n        Your options were crap so " ++ o.2 ++ " wins with **"
    ++ toString o.1
    ++ "** votes\n        That being said, other results exist, so here is your actual poll:\n\n"

/-- The advisory part of the result message: present exactly when an off-list
reaction out-tallies the best option (poll.py line 227). -/
def advisoryPart (options : List String) (reactions : List (String × Int)) :
    String :=
  match sortedResults options reactions, sortedOthers options reactions with
  | top :: _, o :: _ => if top.1 < o.1 then advisoryText o else ""
  | _, _ => ""

/-- The tie line (poll.py line 236). -/
def tieLine (wins : List String) (c : Int) : String :=
  "**Tie between " ++ String.intercalate ", " wins ++ "** (" ++ toString c
    ++ " " ++ vote_str c ++ " each)\n\n>>> "

/-- The winner line (poll.py lines 234-238): the tie form for several winners,
the single-winner form otherwise. -/
def winLine (wins : List String) (c : Int) : String :=
  if wins.length > 1 then tieLine wins c
  else "**" ++ wins.headD "" ++ "** wins! (" ++ toString c ++ " "
    ++ vote_str c ++ ")\n\n>>> "

/-- The non-winning lines (poll.py lines 240-242), one per remaining sorted
entry. -/
def loserLines (entries : List (Int × String)) : String :=
  String.join (entries.map
    (fun p => "**" ++ p.2 ++ "** (" ++ toString p.1 ++ " " ++ vote_str p.1 ++ ")\n"))

/-- The message assembled by `poll_result` (poll.py lines 199-244) from the
topic line, the registered options and the reaction tallies. `none` when no
reaction matches a registered option: `results[0]` then raises `IndexError`,
which the enclosing handler swallows, and nothing is sent. -/
def poll_result_msg (topicLine : String) (options : List String)
    (reactions : List (String × Int)) : Option String :=
  match sortedResults options reactions with
  | [] => none
  | top :: rest =>
    some (headerText topicLine ++ advisoryPart options reactions
      ++ winLine (winners options reactions) top.1
      ++ loserLines ((top :: rest).drop (winners options reactions).length))

/-- A calendar date as stored for a birthday (a Python `datetime` at
midnight; `datetime` years are at least 1). -/
structure Date where
  year : Nat
  month : Nat
  day : Nat
deriving DecidableEq, Repr

/-- Gregorian leap-year rule (as implemented by Python `datetime`). -/
def isLeapYear (y : Nat) : Bool :=
  (y % 4 == 0 && y % 100 != 0) || y % 400 == 0

/-- Length of a month in a given year. -/
def daysInMonth (y m : Nat) : Nat :=
  if m == 2 then (if isLeapYear y then 29 else 28)
  else if m == 4 || m == 6 || m == 9 || m == 11 then 30
  else 31

/-- Day count of a civil date (days since 0000-03-01 in the proleptic
Gregorian calendar, the standard civil-day algorithm). Differences and
comparisons of midnight `datetime`s reduce to this count. -/
def dayNumber (d : Date) : Nat :=
  let y := if d.month ≤ 2 then d.year - 1 else d.year
  let era := y / 400
  let yoe := y % 400
  let mp := (d.month + 9) % 12
  let doy := (153 * mp + 2) / 5 + d.day - 1
  let doe := yoe * 365 + yoe / 4 - yoe / 100 + doy
  era * 146097 + doe

/-- Python `round` on an exact rational: nearest integer, ties to even. -/
def roundHalfEven (q : ℚ) : ℤ :=
  let f := ⌊q⌋
  let r := q - (f : ℚ)
  if r < 1/2 then f
  else if 1/2 < r then f + 1
  else if f % 2 = 0 then f else f + 1

/-- The `seconds_in_year` (birthdays.py line 18), `60 * 60 * 24 * 365.2425`, as
an exact rational. -/
def seconds_in_year : ℚ := 31556952

/-- The age computation (birthdays.py lines 131-133): the seconds from the
stored birthdate (midnight, its own year) to the upcoming midnight, divided
by the average year length and rounded. -/
def ageOf (birth : Date) (tomorrowNum : Nat) : ℤ :=
  roundHalfEven ((((tomorrowNum : ℚ) - (dayNumber birth : ℚ)) * 86400) / seconds_in_year)

/-- One `"{name} is {age} years old\n"` line (birthdays.py line 134). -/
def ageLine (p : String × Date) (tomorrowNum : Nat) : String :=
  p.1 ++ " is " ++ toString (ageOf p.2 tomorrowNum) ++ " years old\n"

/-- The age-line loop (birthdays.py lines 131-134): `message += ...` once per
due person. -/
def ageLinesText (people : List (String × Date)) (tomorrowNum : Nat) : String :=
  match people with
  | [] => ""
  | p :: rest => ageLine p tomorrowNum ++ ageLinesText rest tomorrowNum

/-- The combined announcement (birthdays.py lines 127-134): one header naming
everyone due, then one age line per person, each computed from that persons
own stored birthdate. -/
def birthdayMessage (people : List (String × Date)) (tomorrowNum : Nat) : String :=
  "Happy birthday to " ++ String.intercalate ", " (people.map (fun p => p.1))
    ++ "!\n" ++ ageLinesText people tomorrowNum

/-- Whether a stored birthday exists in the given year as a calendar date
(`person[1].replace(year=...)` succeeds exactly then). -/
def validInYear (y : Nat) (p : String × Option Date) : Bool :=
  match p.2 with
  | none => true
  | some b => b.day ≤ daysInMonth y b.month

/-- The scan loop of `schedule_birthday` (birthdays.py lines 115-122) over the
cached, date-sorted birthday list: people without a parsed date are skipped;
`person[1].replace(year=now.year)` raises `ValueError` when the stored
month/day does not exist in the scan year (February 29 outside a leap year);
otherwise the person is collected when the shifted birthday falls in the
24-hour window `tomorrow - timedelta(1) <= current_birthday < tomorrow`. -/
def collectDue (nowYear tomorrowNum : Nat) :
    List (String × Option Date) → Except PyError (List (String × Date))
  | [] => .ok []
  | (_, none) :: rest => collectDue nowYear tomorrowNum rest
  | (name, some b) :: rest =>
    if daysInMonth nowYear b.month < b.day then
      .error (.valueError "day is out of range for month")
    else
      let cb := dayNumber { year := nowYear, month := b.month, day := b.day }
      match collectDue nowYear tomorrowNum rest with
      | .error e => .error e
      | .ok people =>
        if tomorrowNum - 1 ≤ cb ∧ cb < tomorrowNum then .ok ((name, b) :: people)
        else .ok people

/-- The `BirthdayManager.schedule_birthday` (birthdays.py lines 100-144): `now` is
the scan time (the job fires at local midnight; only its date matters, since
`tomorrow` zeroes the time of day), `tomorrow` is the next midnight. The scan
emits one combined message naming everyone due, or nothing when no one is due
— or when the loop raised, because the outer `try/except` swallows the error
before any send. -/
def schedule_birthday (birthdays : List (String × Option Date)) (now : Date) :
    Option String :=
  let tomorrowNum := dayNumber now + 1
  match collectDue now.year tomorrowNum birthdays with
  | .error _ => none
  | .ok [] => none
  | .ok people => some (birthdayMessage people tomorrowNum)

/-- Specification-side "due today": the stored month/day, placed in the scan
year, lands on the scan date (equivalently, in the 24-hour window ending at
the next local midnight). -/
def dueToday (b : Date) (now : Date) : Bool :=
  dayNumber { year := now.year, month := b.month, day := b.day } == dayNumber now

/-- Specification-side list of people due on the scan date. -/
def duePeople (birthdays : List (String × Option Date)) (now : Date) :
    List (String × Date) :=
  birthdays.filterMap (fun p =>
    match p.2 with
    | none => none
    | some b => if dueToday b now then some (p.1, b) else none)

/-- A store holding one job created by the schedule command: channel 7,
event "party" at "tomorrow 5pm", creator id 10 with mention `<@10>`. -/
def exampleStore : List Job :=
  [{ id := "e1", args := scheduleArgs 7 "party" "tomorrow 5pm" 10 "<@10>" }]

/-- A channel view where the creator `<@10>` and a second member `<@11>` can
see every channel. -/
def exampleChannelView : PyVal → Option Channel :=
  fun _ => some { members := ["<@10>", "<@11>"] }

theorem getJob_modifyJobArgs_ne (s : List Job) (t i : String) (a : List PyVal)
    (h : i ≠ t) : getJob (modifyJobArgs s t a) i = getJob s i := by
  unfold getJob modifyJobArgs
  rw [List.find?_map]
  have hp : ((fun j => j.id == i) ∘ fun j : Job =>
      if j.id == t then { j with args := a } else j) = fun j : Job => j.id == i := by
    funext j
    by_cases hj : j.id = t <;> simp [hj]
  rw [hp]
  cases hf : s.find? (fun j => j.id == i) with
  | none => rfl
  | some j0 =>
    have hji : j0.id = i := by simpa using List.find?_some hf
    simp [hji, h]

theorem signupBody_scheduleArgs_error (gc : PyVal → Option Channel)
    (store : List Job) (tid r : String) (job : Job)
    (hget : getJob store tid = some job)
    (ch aid : Int) (ev ts m : String)
    (hargs : job.args = scheduleArgs ch ev ts aid m) :
    ∃ e, signupBody gc store tid r = .error e := by
  unfold signupBody
  simp only [hget]
  rw [hargs]
  simp only [scheduleArgs, pyIndex, List.get?]
  cases hch : gc (PyVal.vInt ch) with
  | none => exact ⟨_, rfl⟩
  | some c =>
    by_cases hm : c.members.contains r
    · simp only [hm]
      exact ⟨_, rfl⟩
    · simp only [Bool.not_eq_true] at hm
      simp only [hm]
      exact ⟨_, rfl⟩

theorem signup_store_shape (gc : PyVal → Option Channel) (lk : List String)
    (store : List Job) (tid r : String) :
    ((signup gc lk store tid r).2).store = store ∨
      ∃ a, ((signup gc lk store tid r).2).store = modifyJobArgs store tid a := by
  unfold signup withRedlock
  cases hb : signupBody gc store tid r with
  | error e => exact Or.inl rfl
  | ok p =>
    have hp : p.1 = store ∨ ∃ a, p.1 = modifyJobArgs store tid a := by
      unfold signupBody at hb
      repeat' split at hb
      all_goals cases hb
      all_goals first
        | exact Or.inl rfl
        | exact Or.inr ⟨_, rfl⟩
    exact hp

theorem signup_preserves_scheduled (op : SignupOp) (store : List Job)
    (jid : String) (jobS : Job) (hget : getJob store jid = some jobS)
    (ch aid : Int) (ev ts m : String)
    (hargs : jobS.args = scheduleArgs ch ev ts aid m) :
    getJob (((signup op.getChannel [] store op.eventId op.requester).2).store) jid
      = some jobS := by
  by_cases hid : op.eventId = jid
  · subst hid
    obtain ⟨e, he⟩ := signupBody_scheduleArgs_error op.getChannel store op.eventId
      op.requester jobS hget ch aid ev ts m hargs
    unfold signup withRedlock
    simp only [he]
    exact hget
  · rcases signup_store_shape op.getChannel [] store op.eventId op.requester with
      h | ⟨a, h⟩
    · rw [h]; exact hget
    · rw [h, getJob_modifyJobArgs_ne store op.eventId jid a (fun hc => hid hc.symm)]
      exact hget

theorem runSignups_preserves_scheduled (ops : List SignupOp) (store : List Job)
    (jid : String) (jobS : Job) (hget : getJob store jid = some jobS)
    (ch aid : Int) (ev ts m : String)
    (hargs : jobS.args = scheduleArgs ch ev ts aid m) :
    getJob (runSignups ops store) jid = some jobS := by
  induction ops generalizing store with
  | nil => exact hget
  | cons op rest ih =>
    exact ih _ (signup_preserves_scheduled op store jid jobS hget ch aid ev ts m hargs)

/-- C1: for every EventAnnouncement job created by the schedule command and
every finite sequence of signup operations subsequently applied to the store,
the jobs stored participant list (entry 4 of its argument tuple) has no
duplicate identity, its element 0 is the creators mention, and the creator
is never removed. (In this code the list in fact always stays exactly
`[creator mention]`: every signup raises `TypeError` at `job.args[3][0]`
before reaching `job.modify`, because `schedule` stores the creator id at
index 3 and the member list at index 4.) -/
theorem scheduledEventParticipants
    (get_local_date : String → Option Int) (now ch aid : Int)
    (mention jid ev ts : String) (store : List Job) (ops : List SignupOp)
    (hfresh : getJob store jid = none)
    (hok : (schedule get_local_date now ch aid mention jid store ev ts).err = none) :
    ∃ j, getJob (runSignups ops
        (schedule get_local_date now ch aid mention jid store ev ts).store) jid
          = some j ∧
      participantsOf j = [mention] ∧ (participantsOf j).Nodup ∧
      (participantsOf j).head? = some mention ∧ mention ∈ participantsOf j := by
  have hsucc : (schedule get_local_date now ch aid mention jid store ev ts).store =
      store ++ [{ id := jid, args := scheduleArgs ch ev ts aid mention }] := by
    unfold schedule at hok ⊢
    cases hg : get_local_date ts with
    | none => simp only [hg] at hok; simp at hok
    | some d =>
      simp only [hg] at hok ⊢
      by_cases hd : d < now
      · rw [if_pos hd] at hok; simp at hok
      · rw [if_neg hd]
  have hget : getJob (store ++ [{ id := jid, args := scheduleArgs ch ev ts aid mention }])
      jid = some { id := jid, args := scheduleArgs ch ev ts aid mention } := by
    unfold getJob at hfresh ⊢
    rw [List.find?_append, hfresh]
    simp [List.find?]
  have hp : participantsOf { id := jid, args := scheduleArgs ch ev ts aid mention }
      = [mention] := rfl
  refine ⟨{ id := jid, args := scheduleArgs ch ev ts aid mention }, ?_, hp, ?_, ?_, ?_⟩
  · rw [hsucc]
    exact runSignups_preserves_scheduled ops _ jid _ hget ch aid ev ts mention rfl
  · rw [hp]; exact List.nodup_singleton mention
  · rw [hp]; rfl
  · rw [hp]; exact List.mem_singleton_self mention

/-- C1 witness: a concrete scheduled event followed by one signup attempt by
a second member. -/
theorem scheduledEventParticipants_witness :
    ∃ j, getJob (runSignups
        [⟨exampleChannelView, "e1", "<@11>"⟩]
        (schedule (fun _ => some 5) 0 7 10 "<@10>" "e1" [] "party" "tomorrow").store)
        "e1" = some j ∧
      participantsOf j = ["<@10>"] ∧ (participantsOf j).Nodup ∧
      (participantsOf j).head? = some "<@10>" ∧ "<@10>" ∈ participantsOf j :=
  scheduledEventParticipants (fun _ => some 5) 0 7 10 "<@10>" "e1" "party" "tomorrow"
    [] [⟨exampleChannelView, "e1", "<@11>"⟩] rfl rfl

/-- C2 (code behaviour at the failing input): on a job created by the
schedule command, the first and the second signup by the same member both
raise `TypeError` at `job.args[3][0]` (index 3 holds the creator id, an int),
so the participant list indeed never grows, but the second call reports a
`TypeError` through the command error handler instead of the
"already signed up" direct message. -/
theorem signupSecondCallTypeError :
    ((signup exampleChannelView [] exampleStore "e1" "<@11>").2).err
        = some (PyError.typeError "int object is not subscriptable") ∧
    ((signup exampleChannelView [] exampleStore "e1" "<@11>").2).store = exampleStore ∧
    ((signup exampleChannelView [] exampleStore "e1" "<@11>").2).sent = [] ∧
    ((signup exampleChannelView []
        (((signup exampleChannelView [] exampleStore "e1" "<@11>").2).store)
        "e1" "<@11>").2).err
      = some (PyError.typeError "int object is not subscriptable") ∧
    ((signup exampleChannelView []
        (((signup exampleChannelView [] exampleStore "e1" "<@11>").2).store)
        "e1" "<@11>").2).sent = [] :=
  ⟨rfl, rfl, rfl, rfl, rfl⟩

/-- C3 (code behaviour at the failing input): the creator cancelling their own
scheduled job hits the same `TypeError` at `args[3][0]` inside the lock — the
job is never removed and stays retrievable with unchanged args, contradicting
"the cancel command removes the job iff the requester is the creator". -/
theorem cancelByCreatorTypeError :
    ((cancel exampleChannelView [] exampleStore "e1" "<@10>").2).err
        = some (PyError.typeError "int object is not subscriptable") ∧
    ((cancel exampleChannelView [] exampleStore "e1" "<@10>").2).store = exampleStore ∧
    getJob ((cancel exampleChannelView [] exampleStore "e1" "<@10>").2).store "e1"
        = some { id := "e1", args := scheduleArgs 7 "party" "tomorrow 5pm" 10 "<@10>" } ∧
    ((cancel exampleChannelView [] exampleStore "e1" "<@10>").2).sent = [] :=
  ⟨rfl, rfl, rfl, rfl⟩

/-- C4: a poll whose duration string totals strictly under 30 seconds is
rejected with `ValueError` before any message is posted, any reaction added
or any job scheduled; a schedule invocation whose time string is unparseable
or denotes a past time is rejected with `ValueError` before any job is added
or any message sent. -/
theorem validationRejectsBeforeEffects :
    (∀ (mention : String) (aid cid mid : Int) (topic timing : String)
        (options : List String) (s : Int),
        durationSeconds? timing = some s → s < 30 →
        ∃ m, pollCmd mention aid cid mid topic timing options =
          { sent := [], reactions := [], jobs := [],
            err := some (.valueError m) }) ∧
    (∀ (gld : String → Option Int) (now ch aid : Int) (mention jid : String)
        (store : List Job) (ev ts : String),
        (gld ts = none ∨ ∃ d, gld ts = some d ∧ d < now) →
        ∃ m, schedule gld now ch aid mention jid store ev ts =
          { store := store, sent := [], err := some (.valueError m) }) := by
  constructor
  · intro mention aid cid mid topic timing options s hs h30
    unfold pollCmd
    by_cases hopt : options.length < 1
    · rw [if_pos hopt]
      exact ⟨_, rfl⟩
    · rw [if_neg hopt]
      have hpt : parse_time timing =
          .error (.valueError "You must wait at least 30 seconds for a poll") := by
        unfold parse_time
        simp only [hs]
        rw [if_pos h30]
      simp only [hpt]
      exact ⟨_, rfl⟩
  · intro gld now ch aid mention jid store ev ts h
    unfold schedule
    rcases h with hnone | ⟨d, hd, hlt⟩
    · simp only [hnone]
      exact ⟨_, rfl⟩
    · simp only [hd]
      rw [if_pos hlt]
      exact ⟨_, rfl⟩

/-- C4 witness: the duration "10s" (10 seconds) and an unparseable schedule
time string. -/
theorem validationRejectsBeforeEffects_witness :
    (durationSeconds? "10s" = some 10 ∧ (10 : Int) < 30 ∧
      ∃ m, pollCmd "<@10>" 10 7 99 "topic" "10s" ["A"] =
        { sent := [], reactions := [], jobs := [],
          err := some (.valueError m) }) ∧
    ∃ m, schedule (fun _ => none) 0 7 10 "<@10>" "e1" [] "party" "gibberish" =
      { store := [], sent := [], err := some (.valueError m) } :=
  ⟨⟨rfl, by decide,
      validationRejectsBeforeEffects.1 "<@10>" 10 7 99 "topic" "10s" ["A"] 10 rfl
        (by decide)⟩,
    validationRejectsBeforeEffects.2 (fun _ => none) 0 7 10 "<@10>" "e1" [] "party"
      "gibberish" (Or.inl rfl)⟩

/-- C9: signup, cancel and setCategory each run their critical section inside
the scoped `with redlocks.create_lock(...)` form, so the named lock is
released on every exit path of the section — on normal completion and equally
when the body raises (every execution, error or not, returns the lock set it
started from). -/
theorem namedLockReleasedOnEveryExit :
    (∀ (gc : PyVal → Option Channel) (locks : List String) (store : List Job)
        (eid r : String), (signup gc locks store eid r).1 = locks) ∧
    (∀ (gc : PyVal → Option Channel) (locks : List String) (store : List Job)
        (eid r : String), (cancel gc locks store eid r).1 = locks) ∧
    (∀ (locks : List String) (gk cat : String) (emojis : List String)
        (existing : List (String × String)),
        (setCategory locks gk cat emojis existing).1 = locks) := by
  refine ⟨?_, ?_, ?_⟩ <;> intros <;>
    simp [signup, cancel, setCategory, withRedlock]

theorem buildTalliesGo_spec (options : List String)
    (reactions : List (String × Int)) :
    ∀ acc1 acc2, buildTalliesGo options acc1 acc2 reactions =
      (acc1 ++ reactions.filterMap (resEntry options),
       acc2 ++ reactions.filterMap (othEntry options)) := by
  induction reactions with
  | nil => intro acc1 acc2; simp [buildTalliesGo]
  | cons r rs ih =>
    intro acc1 acc2
    simp only [buildTalliesGo, List.filterMap_cons]
    cases hf : emojis_order.findIdx? (fun e => e == r.1) with
    | none =>
      simp only [resEntry, othEntry, hf]
      rw [ih]
      simp
    | some i =>
      cases ho : options.get? i with
      | none =>
        simp only [resEntry, othEntry, hf, ho, Option.map_none']
        rw [ih]
        simp
      | some o =>
        simp only [resEntry, othEntry, hf, ho, Option.map_some']
        rw [ih]
        simp

theorem takeWhile_eq_filter_of_desc (M : Int) (l : List (Int × String))
    (hle : ∀ x ∈ l, x.1 ≤ M) (hpair : l.Pairwise (fun a b => b.1 ≤ a.1)) :
    l.takeWhile (fun p => p.1 == M) = l.filter (fun p => p.1 == M) := by
  induction l with
  | nil => rfl
  | cons x xs ih =>
    rcases List.pairwise_cons.mp hpair with ⟨hx, hxs⟩
    by_cases hxm : x.1 = M
    · rw [List.takeWhile_cons_of_pos (by simp [hxm]),
        List.filter_cons_of_pos (by simp [hxm]),
        ih (fun y hy => hle y (List.mem_cons_of_mem x hy)) hxs]
    · rw [List.takeWhile_cons_of_neg (by simp [hxm]),
        List.filter_cons_of_neg (by simp [hxm])]
      have hnil : xs.filter (fun p => p.1 == M) = [] := by
        rw [List.filter_eq_nil_iff]
        intro y hy
        have h1 : y.1 ≤ x.1 := hx y hy
        have h2 : x.1 ≤ M := hle x (List.mem_cons_self x xs)
        simp only [beq_iff_eq]
        omega
      rw [hnil]

theorem winners_perm (options : List String) (reactions : List (String × Int))
    (top : Int × String) (rest : List (Int × String))
    (hres : sortedResults options reactions = top :: rest) :
    (winners options reactions).Perm
      (((top :: rest).filter (fun p => p.1 == top.1)).map (fun p => p.2)) := by
  have hpair : (top :: rest).Pairwise descRel := by
    rw [← hres]
    exact List.sorted_insertionSort descRel _
  rcases List.pairwise_cons.mp hpair with ⟨htop, hrest⟩
  have hle : ∀ x ∈ rest, x.1 ≤ top.1 := by
    intro x hx
    rcases htop x hx with h | ⟨h, _⟩
    · exact le_of_lt h
    · exact le_of_eq h.symm
  have hpair2 : rest.Pairwise (fun a b : Int × String => b.1 ≤ a.1) := by
    refine hrest.imp ?_
    intro a b hab
    rcases hab with h | ⟨h, _⟩
    · exact le_of_lt h
    · exact le_of_eq h.symm
  have htw : rest.takeWhile (fun p => p.1 == top.1)
      = rest.filter (fun p => p.1 == top.1) :=
    takeWhile_eq_filter_of_desc top.1 rest hle hpair2
  have hfil : (top :: rest).filter (fun p => p.1 == top.1)
      = top :: rest.filter (fun p => p.1 == top.1) :=
    List.filter_cons_of_pos (by simp)
  rw [hfil]
  unfold winners
  simp only [hres]
  refine (List.perm_insertionSort strLe _).trans ?_
  rw [htw]
  simp

/-- C5: when every registered option has a tally and the maximal tally is
shared by at least two entries, the result message declares a tie naming (as
a permutation) exactly the maximal-tally options, credits the shared maximal
count, and no lower-tally option is among the winners (every winner is a
maximal-count entry, and the shared count bounds every tally). -/
theorem pollTieDeclared (topicLine : String) (options : List String)
    (reactions : List (String × Int))
    (_hall : ∀ o ∈ options, o ∈ ((buildTallies options reactions).1).map (fun p => p.2))
    (top : Int × String) (rest : List (Int × String))
    (hres : sortedResults options reactions = top :: rest)
    (hk : 2 ≤ ((top :: rest).filter (fun p => p.1 == top.1)).length) :
    poll_result_msg topicLine options reactions =
      some (headerText topicLine ++ advisoryPart options reactions
        ++ tieLine (winners options reactions) top.1
        ++ loserLines ((top :: rest).drop (winners options reactions).length)) ∧
    (winners options reactions).Perm
      (((top :: rest).filter (fun p => p.1 == top.1)).map (fun p => p.2)) ∧
    (∀ w ∈ winners options reactions, (top.1, w) ∈ sortedResults options reactions) ∧
    (∀ p ∈ sortedResults options reactions, p.1 ≤ top.1) := by
  have hperm := winners_perm options reactions top rest hres
  have hlen : 2 ≤ (winners options reactions).length := by
    rw [hperm.length_eq, List.length_map]
    exact hk
  refine ⟨?_, hperm, ?_, ?_⟩
  · unfold poll_result_msg
    simp only [hres]
    unfold winLine
    rw [if_pos (by omega)]
  · intro w hw
    have hw2 : w ∈ ((top :: rest).filter (fun p => p.1 == top.1)).map (fun p => p.2) :=
      hperm.mem_iff.mp hw
    rcases List.mem_map.mp hw2 with ⟨p, hp, hpw⟩
    rcases List.mem_filter.mp hp with ⟨hpmem, hpeq⟩
    have hpform : p = (top.1, w) := by
      rcases p with ⟨pc, pn⟩
      simp only [beq_iff_eq] at hpeq
      simp only at hpw
      rw [hpeq, hpw]
    rw [hres]
    rw [hpform] at hpmem
    exact hpmem
  · intro p hp
    have hpair : (top :: rest).Pairwise descRel := by
      rw [← hres]
      exact List.sorted_insertionSort descRel _
    rw [hres] at hp
    rcases List.mem_cons.mp hp with h | h
    · exact le_of_eq (by rw [h])
    · rcases (List.pairwise_cons.mp hpair).1 p h with h2 | ⟨h2, _⟩
      · exact le_of_lt h2
      · exact le_of_eq h2.symm

/-- C5 witness: tallies A:5, B:5, C:2 (raw reaction counts 6, 6, 3). -/
theorem pollTieDeclared_witness :
    (winners ["A", "B", "C"] [("1️⃣", 6), ("2️⃣", 6), ("3️⃣", 3)]).Perm
      ((([((5 : Int), "B"), (5, "A"), (2, "C")]).filter
          (fun p => p.1 == (5 : Int))).map (fun p => p.2)) :=
  (pollTieDeclared "t" ["A", "B", "C"] [("1️⃣", 6), ("2️⃣", 6), ("3️⃣", 3)]
    (by decide) (5, "B") [(5, "A"), (2, "C")] (by decide) (by decide)).2.1

/-- C6: when some off-list reaction out-tallies the best registered option,
the result message is a single message that leads with the advisory naming
the top off-list reaction and its raw count before the actual poll outcome;
the named reaction carries the maximal off-list count, and no off-list
reaction ever enters the option results (every result entry names a
registered option). -/
theorem pollOffListAdvisoryLeads (topicLine : String) (options : List String)
    (reactions : List (String × Int))
    (top : Int × String) (rest : List (Int × String))
    (hres : sortedResults options reactions = top :: rest)
    (o : Int × String) (os : List (Int × String))
    (hoth : sortedOthers options reactions = o :: os)
    (hgt : top.1 < o.1) :
    poll_result_msg topicLine options reactions =
      some (headerText topicLine ++ advisoryText o
        ++ winLine (winners options reactions) top.1
        ++ loserLines ((top :: rest).drop (winners options reactions).length)) ∧
    (∀ p ∈ sortedOthers options reactions, p.1 ≤ o.1) ∧
    (∀ p ∈ sortedResults options reactions, p.2 ∈ options) := by
  refine ⟨?_, ?_, ?_⟩
  · unfold poll_result_msg advisoryPart
    simp only [hres, hoth]
    rw [if_pos hgt]
  · intro p hp
    have hpair : (o :: os).Pairwise descRel := by
      rw [← hoth]
      exact List.sorted_insertionSort descRel _
    rw [hoth] at hp
    rcases List.mem_cons.mp hp with h | h
    · exact le_of_eq (by rw [h])
    · rcases (List.pairwise_cons.mp hpair).1 p h with h2 | ⟨h2, _⟩
      · exact le_of_lt h2
      · exact le_of_eq h2.symm
  · intro p hp
    have hmem : p ∈ (buildTallies options reactions).1 := by
      unfold sortedResults at hp
      exact (List.mem_insertionSort descRel).mp hp
    rw [buildTallies, buildTalliesGo_spec options reactions [] []] at hmem
    simp only [List.nil_append] at hmem
    rcases List.mem_filterMap.mp hmem with ⟨r, _, hr⟩
    unfold resEntry at hr
    cases hfi : emojis_order.findIdx? (fun e => e == r.1) with
    | none =>
      simp only [hfi] at hr
      exact Option.noConfusion hr
    | some i =>
      simp only [hfi] at hr
      cases ho : options.get? i with
      | none =>
        simp only [ho, Option.map_none'] at hr
        exact Option.noConfusion hr
      | some o0 =>
        simp only [ho, Option.map_some', Option.some.injEq] at hr
        rw [← hr]
        exact List.get?_mem ho

/-- C6 witness: tallies A:5, B:3 with an off-list reaction at 7. -/
theorem pollOffListAdvisoryLeads_witness :
    poll_result_msg "t" ["A", "B"] [("1️⃣", 6), ("2️⃣", 4), ("💀", 7)] =
      some (headerText "t" ++ advisoryText (7, "💀")
        ++ winLine (winners ["A", "B"] [("1️⃣", 6), ("2️⃣", 4), ("💀", 7)]) 5
        ++ loserLines ([((5 : Int), "A"), (3, "B")].drop
            (winners ["A", "B"] [("1️⃣", 6), ("2️⃣", 4), ("💀", 7)]).length)) :=
  (pollOffListAdvisoryLeads "t" ["A", "B"] [("1️⃣", 6), ("2️⃣", 4), ("💀", 7)]
    (5, "A") [(3, "B")] (by decide) (7, "💀") [] (by decide) (by decide)).1

/-- C7 counterexample: with tallies A:5, B:2, C:2 the displayed non-winner
section lists C before B although both have two votes and "B" < "C" — the
display breaks count-ties in descending, not ascending, lexicographic
order. -/
theorem pollDisplayOrder_counterexample :
    poll_result_msg "t" ["A", "B", "C"] [("1️⃣", 6), ("2️⃣", 3), ("3️⃣", 3)] =
      some "results of t:\n**A** wins! (5 votes)\n\n>>> **C** (2 votes)\n**B** (2 votes)\n" ∧
    (sortedResults ["A", "B", "C"] [("1️⃣", 6), ("2️⃣", 3), ("3️⃣", 3)]).drop
        (winners ["A", "B", "C"] [("1️⃣", 6), ("2️⃣", 3), ("3️⃣", 3)]).length
      = [(2, "C"), (2, "B")] ∧
    strLe "B" "C" ∧ ("B" : String) ≠ "C" :=
  ⟨rfl, by decide, by decide, by decide⟩

/-- C7 amended: options are ranked by vote count descending; ties among the
winners are displayed in ascending lexicographic order, while the non-winning
entries after the winners appear in descending vote order with equal-count
ties in descending (not ascending) lexicographic order. -/
theorem pollDisplayOrder (options : List String) (reactions : List (String × Int)) :
    (sortedResults options reactions).Pairwise descRel ∧
    (winners options reactions).Pairwise strLe ∧
    ((sortedResults options reactions).drop
        (winners options reactions).length).Pairwise descRel := by
  have h1p : (sortedResults options reactions).Pairwise descRel :=
    List.sorted_insertionSort descRel _
  refine ⟨h1p, ?_, h1p.sublist (List.drop_sublist _ _)⟩
  unfold winners
  cases hres : sortedResults options reactions with
  | nil => exact List.Pairwise.nil
  | cons top rest =>
    exact List.sorted_insertionSort strLe
      (top.2 :: (rest.takeWhile (fun p => p.1 == top.1)).map (fun p => p.2))

/-- C10: every registered-option reaction is tallied at its raw count minus
one (the bots single priming reaction per option, added at poll creation),
while every off-list reaction is tallied at its raw count. -/
theorem pollTallyDiscount (options : List String) (reactions : List (String × Int)) :
    (buildTallies options reactions).1 = reactions.filterMap (resEntry options) ∧
    (buildTallies options reactions).2 = reactions.filterMap (othEntry options) ∧
    (∀ r ∈ reactions, ∀ i, emojis_order.findIdx? (fun e => e == r.1) = some i →
        ∀ o, options.get? i = some o →
          (r.2 - 1, o) ∈ (buildTallies options reactions).1) ∧
    (∀ r ∈ reactions, emojis_order.findIdx? (fun e => e == r.1) = none →
        (r.2, r.1) ∈ (buildTallies options reactions).2) ∧
    (∀ (mention : String) (aid cid mid : Int) (topic timing : String),
        (pollCmd mention aid cid mid topic timing options).err = none →
        (pollCmd mention aid cid mid topic timing options).reactions
          = emojis_order.take options.length) := by
  have h1 : (buildTallies options reactions).1 = reactions.filterMap (resEntry options) := by
    rw [buildTallies, buildTalliesGo_spec options reactions [] []]
    simp
  have h2 : (buildTallies options reactions).2 = reactions.filterMap (othEntry options) := by
    rw [buildTallies, buildTalliesGo_spec options reactions [] []]
    simp
  refine ⟨h1, h2, ?_, ?_, ?_⟩
  · intro r hr i hi o ho
    rw [h1]
    rw [List.get?_eq_getElem?] at ho
    exact List.mem_filterMap.mpr ⟨r, hr, by simp [resEntry, hi, ho]⟩
  · intro r hr hi
    rw [h2]
    exact List.mem_filterMap.mpr ⟨r, hr, by simp [othEntry, hi]⟩
  · intro mention aid cid mid topic timing h
    unfold pollCmd at h ⊢
    by_cases hopt : options.length < 1
    · rw [if_pos hopt] at h
      simp at h
    · rw [if_neg hopt] at h ⊢
      cases hpt : parse_time timing with
      | error e =>
        rw [hpt] at h
        simp at h
      | ok t =>
        simp only [hpt] at h ⊢
        by_cases hlen : options.length > emojis_order.length
        · rw [if_pos hlen] at h
          simp at h
        · rw [if_neg hlen]

/-- C10 witness: one registered option "A" primed once by the bot, a
registered reaction at raw count 3 reported as 2, and an off-list reaction at
raw count 4 reported as 4. -/
theorem pollTallyDiscount_witness :
    ((2 : Int), "A") ∈ (buildTallies ["A"] [("1️⃣", 3), ("💀", 4)]).1 ∧
    ((4 : Int), "💀") ∈ (buildTallies ["A"] [("1️⃣", 3), ("💀", 4)]).2 ∧
    (pollCmd "<@1>" 1 2 3 "t" "5m" ["A"]).reactions = emojis_order.take 1 :=
  ⟨(pollTallyDiscount ["A"] [("1️⃣", 3), ("💀", 4)]).2.2.1 ("1️⃣", 3)
      (by decide) 0 (by decide) "A" rfl,
    (pollTallyDiscount ["A"] [("1️⃣", 3), ("💀", 4)]).2.2.2.1 ("💀", 4)
      (by decide) (by decide),
    (pollTallyDiscount ["A"] [("1️⃣", 3), ("💀", 4)]).2.2.2.2 "<@1>" 1 2 3 "t" "5m" rfl⟩

theorem collectDue_eq (birthdays : List (String × Option Date)) (now : Date)
    (hvalid : birthdays.all (validInYear now.year) = true) :
    collectDue now.year (dayNumber now + 1) birthdays = .ok (duePeople birthdays now) := by
  induction birthdays with
  | nil => rfl
  | cons p rest ih =>
    rw [List.all_cons, Bool.and_eq_true] at hvalid
    have hrest := ih hvalid.2
    rcases p with ⟨name, ob⟩
    cases ob with
    | none =>
      have h1 : collectDue now.year (dayNumber now + 1) ((name, none) :: rest)
          = collectDue now.year (dayNumber now + 1) rest := rfl
      have h2 : duePeople ((name, none) :: rest) now = duePeople rest now := rfl
      rw [h1, h2]
      exact hrest
    | some b =>
      have hv : b.day ≤ daysInMonth now.year b.month := by
        simpa [validInYear] using hvalid.1
      simp only [collectDue, hrest]
      rw [if_neg (by omega : ¬ daysInMonth now.year b.month < b.day)]
      by_cases hdue : dayNumber { year := now.year, month := b.month, day := b.day }
          = dayNumber now
      · rw [if_pos (by omega)]
        have h2 : duePeople ((name, some b) :: rest) now
            = (name, b) :: duePeople rest now := by
          simp [duePeople, List.filterMap_cons, dueToday, hdue]
        rw [h2]
      · rw [if_neg (by omega)]
        have h2 : duePeople ((name, some b) :: rest) now = duePeople rest now := by
          simp [duePeople, List.filterMap_cons, dueToday, hdue]
        rw [h2]

theorem ageLine_infix_ageLinesText (people : List (String × Date)) (t : Nat)
    (p : String × Date) (hp : p ∈ people) :
    (ageLine p t).data <:+: (ageLinesText people t).data := by
  induction people with
  | nil => cases hp
  | cons q rest ih =>
    rcases List.mem_cons.mp hp with h | h
    · subst h
      show (ageLine p t).data <:+: (ageLine p t ++ ageLinesText rest t).data
      rw [String.data_append]
      exact (List.prefix_append _ _).isInfix
    · show (ageLine p t).data <:+: (ageLine q t ++ ageLinesText rest t).data
      rw [String.data_append]
      exact (ih h).trans (List.suffix_append _ _).isInfix

/-- C8 amended: provided every stored birthday exists as a calendar date in
the scan year (no February 29 entry when the scan year is not a leap year),
the daily scan emits nothing when no one is due, and emits exactly one
combined announcement when k ≥ 1 people are due — even when several share
the same month/day — containing, for each due person, their own age line
computed from their own stored birthdate. When some stored birthday does not
exist in the scan year, the whole scan aborts and emits nothing even if
others are due. -/
theorem birthdayScanAnnouncement (birthdays : List (String × Option Date)) (now : Date)
    (hvalid : birthdays.all (validInYear now.year) = true) :
    (duePeople birthdays now = [] → schedule_birthday birthdays now = none) ∧
    (duePeople birthdays now ≠ [] →
      schedule_birthday birthdays now
        = some (birthdayMessage (duePeople birthdays now) (dayNumber now + 1)) ∧
      ∀ p ∈ duePeople birthdays now,
        (ageLine p (dayNumber now + 1)).data <:+:
          (birthdayMessage (duePeople birthdays now) (dayNumber now + 1)).data) := by
  have hc := collectDue_eq birthdays now hvalid
  constructor
  · intro hnil
    unfold schedule_birthday
    simp only [hc, hnil]
  · intro hne
    constructor
    · unfold schedule_birthday
      simp only [hc]
    · intro p hp
      have h1 : (ageLine p (dayNumber now + 1)).data <:+:
          (ageLinesText (duePeople birthdays now) (dayNumber now + 1)).data :=
        ageLine_infix_ageLinesText _ _ p hp
      have h2 : (ageLinesText (duePeople birthdays now) (dayNumber now + 1)).data <:+
          (birthdayMessage (duePeople birthdays now) (dayNumber now + 1)).data := by
        unfold birthdayMessage
        rw [String.data_append]
        exact List.suffix_append _ _
      exact h1.trans h2.isInfix

/-- C8 counterexample: with B born February 29 2000 and A born July 1 2000
in the (month/day-sorted) cache, the scan of July 1 2026 — not a leap year —
emits nothing even though A is due: `replace(year=2026)` on Bs stored
birthday raises `ValueError` and the outer `try/except` swallows the whole
scan before any send. -/
theorem birthdayScanFeb29_counterexample :
    schedule_birthday [("B", some ⟨2000, 2, 29⟩), ("A", some ⟨2000, 7, 1⟩)]
        ⟨2026, 7, 1⟩ = none ∧
    dueToday ⟨2000, 7, 1⟩ ⟨2026, 7, 1⟩ = true ∧
    duePeople [("B", some ⟨2000, 2, 29⟩), ("A", some ⟨2000, 7, 1⟩)] ⟨2026, 7, 1⟩
      = [("A", ⟨2000, 7, 1⟩)] := by
  refine ⟨rfl, by decide, by decide⟩

/-- C8 witness: two people sharing July 1 (born 1990 and 1995), scanned on
July 1 2026: one combined message. -/
theorem birthdayScanAnnouncement_witness :
    schedule_birthday [("A", some ⟨1990, 7, 1⟩), ("B", some ⟨1995, 7, 1⟩)]
        ⟨2026, 7, 1⟩
      = some (birthdayMessage
          (duePeople [("A", some ⟨1990, 7, 1⟩), ("B", some ⟨1995, 7, 1⟩)]
            ⟨2026, 7, 1⟩)
          (dayNumber ⟨2026, 7, 1⟩ + 1)) :=
  ((birthdayScanAnnouncement [("A", some ⟨1990, 7, 1⟩), ("B", some ⟨1995, 7, 1⟩)]
      ⟨2026, 7, 1⟩ (by decide)).2 (by decide)).1

end SafetyChan
